import Mathlib

/-!
Shallow embedding of the Bluetooth host HCI transport layer
(`src/hci/src/hci_layer.c` of the system_bt repository) and proofs of the
specification claims about it.

Conventions of the embedding:
* machine bytes are `Nat` values reduced modulo 256 where the C code reads
  `uint8_t`; `uint16_t` arithmetic is modulo 65536;
* the mutable module-level state (`command_credits`,
  `commands_pending_response`, the per-type `packet_receive_data_t`
  contexts, the lifecycle flags) is passed and returned explicitly;
* calls into collaborator modules (buffer allocator, low-power manager,
  packet fragmenter, btsnoop, HAL, vendor, controller) are recorded as
  explicit effect values / traces in the results;
* the HAL inbound byte source is a `List Nat` of available bytes: a
  non-blocking 1-byte read pops the head, a non-blocking bulk read of `n`
  bytes takes `min n available`;
* the buffer allocator is an oracle `List Bool`: each allocation attempt
  consumes the head (`true` = success), an exhausted oracle succeeds.
-/

set_option autoImplicit false

namespace Hci

/-- Unsigned 8-bit reduction, models storing into a `uint8_t`. -/
def u8 (x : Nat) : Nat := x % 256

/-- Unsigned 16-bit reduction, models storing into a `uint16_t`. -/
def u16 (x : Nat) : Nat := x % 65536

/-- Unsigned 16-bit decrement (`x--` on a `uint16_t`). -/
def u16sub1 (x : Nat) : Nat := (x + 65535) % 65536

/-- Reading byte `i` of a byte array through a `uint8_t *` stream pointer. -/
def byteAt (data : List Nat) (i : Nat) : Nat := u8 (data.getD i 0)

/-- Modelled from the spec: the `STREAM_TO_UINT16` macro of the stack's
stream utilities (not under `src/`); spec section 6 fixes the wire format as
little-endian 16-bit, low byte first. -/
def stream_to_uint16 (lo hi : Nat) : Nat := u16 (lo + (hi <<< 8))

/-- `HCI_COMMAND_COMPLETE_EVT` (0x0E) from hci_layer.c. -/
def HCI_COMMAND_COMPLETE_EVT : Nat := 0x0E

/-- `HCI_COMMAND_STATUS_EVT` (0x0F) from hci_layer.c. -/
def HCI_COMMAND_STATUS_EVT : Nat := 0x0F

/-- Modelled from the spec: the outbound command message tag
`MSG_STACK_TO_HC_HCI_CMD` (bt_types.h is not under `src/`); only its
identity matters here. -/
def MSG_STACK_TO_HC_HCI_CMD : Nat := 0x2000

/-- Modelled from the spec: inbound upward-dispatch tags (spec section 6,
"Upward-dispatched event tags: ERROR, ACL, SCO, EVT"); bt_types.h is not
under `src/`, only the identities of the four tags matter here. -/
def MSG_HC_TO_STACK_HCI_ERR : Nat := 0x1300

/-- Inbound ACL upward-dispatch tag, see `MSG_HC_TO_STACK_HCI_ERR`. -/
def MSG_HC_TO_STACK_HCI_ACL : Nat := 0x1100

/-- Inbound SCO upward-dispatch tag, see `MSG_HC_TO_STACK_HCI_ERR`. -/
def MSG_HC_TO_STACK_HCI_SCO : Nat := 0x1200

/-- Inbound EVENT upward-dispatch tag, see `MSG_HC_TO_STACK_HCI_ERR`. -/
def MSG_HC_TO_STACK_HCI_EVT : Nat := 0x1000

/-- Modelled from the spec: `BT_HDR_SIZE` is `sizeof(BT_HDR)` (bt_types.h
is not under `src/`): four `uint16_t` header fields, 8 bytes. -/
def BT_HDR_SIZE : Nat := 8

/-- The `BT_HDR` packet buffer. `data` models the flexible byte array that
follows the header (writes past its length are dropped; they would be heap
overflows in the C code). `size` records the byte count requested from the
buffer allocator when this model allocated the buffer. -/
structure BT_HDR where
  event : Nat
  len : Nat
  offset : Nat
  layer_specific : Nat
  data : List Nat
  size : Nat := 0
deriving DecidableEq, Repr

/-- `waiting_command_t`: a command awaiting its response. The two callback
fields model presence of the C function pointers (`NULL` = `false`). -/
structure waiting_command_t where
  opcode : Nat
  complete_callback : Bool
  status_callback : Bool
  command : BT_HDR
  context : Nat
deriving DecidableEq, Repr

/-- `get_waiting_command`: scan `commands_pending_response` oldest-first,
remove and return the first entry whose opcode matches; also returns the
list after removal. -/
def get_waiting_command (opcode : Nat) :
    List waiting_command_t → Option waiting_command_t × List waiting_command_t
  | [] => (none, [])
  | wait_entry :: rest =>
    if wait_entry.opcode = opcode then
      (some wait_entry, rest)
    else
      let r := get_waiting_command opcode rest
      (r.1, wait_entry :: r.2)

/-- Result of one `filter_incoming_event` invocation: the returned boolean,
the module state after (`command_credits`, pending list), and the effects
performed (callback invocations, buffer frees, watchdog restart, warning
log). -/
structure filter_result_t where
  consumed : Bool
  command_credits : Int
  pending_after : List waiting_command_t
  complete_callback_invoked : Bool
  status_callback_invoked : Bool
  packet_freed : Bool
  command_freed : Bool
  wait_entry_freed : Bool
  watchdog_restarted : Bool
  warned_no_match : Bool
deriving DecidableEq, Repr

/-- The buffer dispositions computed at the `intercepted` label of
`filter_incoming_event`: (packet freed, original command freed, wait entry
freed). -/
def filter_disposition (event_code : Nat) (wait_entry : Option waiting_command_t) :
    Bool × Bool × Bool :=
  match wait_entry with
  | some w =>
    ((event_code == HCI_COMMAND_STATUS_EVT || !w.complete_callback),
     (event_code == HCI_COMMAND_COMPLETE_EVT || !w.status_callback),
     true)
  | none => (true, false, false)

/-- `filter_incoming_event`: inspect an inbound event packet; on
command-complete (0x0E) / command-status (0x0F) replace the credit counter
with the event's credit byte, find and remove the matching pending command,
invoke its callback if any, restart the watchdog, and free buffers per the
disposition rules; return `true` iff the event was intercepted. -/
def filter_incoming_event (command_credits : Int)
    (commands_pending_response : List waiting_command_t)
    (packet : List Nat) : filter_result_t :=
  let event_code := byteAt packet 0
  if event_code = HCI_COMMAND_COMPLETE_EVT then
    let credits' : Int := byteAt packet 2
    let opcode := stream_to_uint16 (byteAt packet 3) (byteAt packet 4)
    let found := get_waiting_command opcode commands_pending_response
    let d := filter_disposition event_code found.1
    { consumed := true
      command_credits := credits'
      pending_after := found.2
      complete_callback_invoked :=
        match found.1 with
        | some w => w.complete_callback
        | none => false
      status_callback_invoked := false
      packet_freed := d.1
      command_freed := d.2.1
      wait_entry_freed := d.2.2
      watchdog_restarted := true
      warned_no_match := found.1.isNone }
  else if event_code = HCI_COMMAND_STATUS_EVT then
    let credits' : Int := byteAt packet 3
    let opcode := stream_to_uint16 (byteAt packet 4) (byteAt packet 5)
    let found := get_waiting_command opcode commands_pending_response
    let d := filter_disposition event_code found.1
    { consumed := true
      command_credits := credits'
      pending_after := found.2
      complete_callback_invoked := false
      status_callback_invoked :=
        match found.1 with
        | some w => w.status_callback
        | none => false
      packet_freed := d.1
      command_freed := d.2.1
      wait_entry_freed := d.2.2
      watchdog_restarted := true
      warned_no_match := found.1.isNone }
  else
    { consumed := false
      command_credits := command_credits
      pending_after := commands_pending_response
      complete_callback_invoked := false
      status_callback_invoked := false
      packet_freed := false
      command_freed := false
      wait_entry_freed := false
      watchdog_restarted := false
      warned_no_match := false }

/-- The outbound-scheduler state touched by `event_command_ready`. -/
structure hci_state_t where
  command_credits : Int
  command_queue : List waiting_command_t
  commands_pending_response : List waiting_command_t
deriving DecidableEq, Repr

/-- Collaborator calls made by `event_command_ready`, in order. -/
inductive sched_event_t where
  | wake_assert
  | fragment_and_dispatch (command : BT_HDR)
  | transmit_done
  | restart_command_timeout
deriving DecidableEq, Repr

/-- `event_command_ready`: if credits are positive, dequeue one pending
command, decrement the credits, append the entry to the pending-response
list, send the command through the low-power bracket to the fragmenter,
and restart the watchdog; otherwise do nothing. The reactor invokes this
handler only while the queue is nonempty (a dequeue on an empty
`fixed_queue_t` would block), so the empty-queue case is a no-op here. -/
def event_command_ready (s : hci_state_t) : hci_state_t × List sched_event_t :=
  if s.command_credits > 0 then
    match s.command_queue with
    | [] => (s, [])
    | wait_entry :: rest =>
      ({ command_credits := s.command_credits - 1
         command_queue := rest
         commands_pending_response := s.commands_pending_response ++ [wait_entry] },
       [.wake_assert, .fragment_and_dispatch wait_entry.command, .transmit_done,
        .restart_command_timeout])
  else
    (s, [])

/-- Result of one `transmit_command` invocation. -/
structure transmit_result_t where
  command_queue : List waiting_command_t
  enqueued : Option waiting_command_t
  logged_error : Bool
  command_freed : Bool
  complete_callback_invoked : Bool
  status_callback_invoked : Bool
deriving DecidableEq, Repr

/-- `transmit_command`: allocate a wait entry (`alloc_ok` models the
`osi_calloc` outcome), parse the opcode from the command's first two
payload bytes, tag the command's `event` field, and enqueue the entry on
the command queue; on allocation failure log an error and return. -/
def transmit_command (alloc_ok : Bool) (command_queue : List waiting_command_t)
    (command : BT_HDR) (complete_callback status_callback : Bool)
    (context : Nat) : transmit_result_t :=
  if !alloc_ok then
    { command_queue := command_queue
      enqueued := none
      logged_error := true
      command_freed := false
      complete_callback_invoked := false
      status_callback_invoked := false }
  else
    let opcode := stream_to_uint16 (byteAt command.data command.offset)
      (byteAt command.data (command.offset + 1))
    let command' := { command with event := MSG_STACK_TO_HC_HCI_CMD }
    let wait_entry : waiting_command_t :=
      { opcode := opcode
        complete_callback := complete_callback
        status_callback := status_callback
        command := command'
        context := context }
    { command_queue := command_queue ++ [wait_entry]
      enqueued := some wait_entry
      logged_error := false
      command_freed := false
      complete_callback_invoked := false
      status_callback_invoked := false }

/-- Collaborator calls made by the postload task and by
`sco_config_callback`. -/
inductive postload_call_t where
  | send_async_configure_sco
  | sco_config_callback_local (success : Bool)
  | begin_acl_size_fetch
deriving DecidableEq, Repr

/-- `sco_config_callback`: the success flag is ignored (`UNUSED_ATTR`); it
asks the controller to begin the ACL size fetch. -/
def sco_config_callback (_success : Bool) : List postload_call_t :=
  [.begin_acl_size_fetch]

/-- `event_postload`: issue the async vendor SCO-configure command; if the
submission returned -1, locally invoke `sco_config_callback(false)`. The
argument is the value `vendor->send_async_command` returned. -/
def event_postload (send_async_command_result : Int) : List postload_call_t :=
  if send_async_command_result = -1 then
    [postload_call_t.send_async_configure_sco, .sco_config_callback_local false] ++
      sco_config_callback false
  else
    [postload_call_t.send_async_configure_sco]

/-- The lifecycle state touched by `shut_down`. -/
structure lifecycle_state_t where
  has_shut_down : Bool
  firmware_is_configured : Bool
  thread_exists : Bool
deriving DecidableEq, Repr

/-- Teardown steps performed by `shut_down`, in program order. -/
inductive shutdown_step_t where
  | warn_already_happened
  | close_inject
  | set_epilog_alarm
  | post_event_epilog
  | thread_stop
  | thread_join
  | free_command_queue
  | free_packet_queue
  | free_pending_list
  | destroy_pending_lock
  | fragmenter_cleanup
  | free_epilog_alarm
  | free_command_response_alarm
  | low_power_cleanup
  | hal_close
  | chip_power_off
  | vendor_close
  | thread_free
deriving DecidableEq, Repr

/-- `shut_down`: if `has_shut_down` is already set, log a warning and
return; otherwise run the teardown sequence, clear
`firmware_is_configured`, release the thread, and set `has_shut_down`. -/
def shut_down (s : lifecycle_state_t) : lifecycle_state_t × List shutdown_step_t :=
  if s.has_shut_down then
    (s, [.warn_already_happened])
  else
    let thread_steps :=
      if s.thread_exists then
        (if s.firmware_is_configured then
          [shutdown_step_t.set_epilog_alarm, .post_event_epilog]
         else
          [shutdown_step_t.thread_stop]) ++ [.thread_join]
      else []
    ({ has_shut_down := true, firmware_is_configured := false, thread_exists := false },
     [shutdown_step_t.close_inject] ++ thread_steps ++
       [.free_command_queue, .free_packet_queue, .free_pending_list,
        .destroy_pending_lock, .fragmenter_cleanup, .free_epilog_alarm,
        .free_command_response_alarm, .low_power_cleanup, .hal_close,
        .chip_power_off, .vendor_close, .thread_free])

/-- `serial_data_type_t`. Modelled from the spec: the HAL's packet-type
tags (hci_hal.h is not under `src/`): COMMAND = 1, ACL = 2, SCO = 3,
EVENT = 4; hci_layer.c's index macros subtract 1 resp. 2 from them. -/
inductive serial_data_type_t where
  | command
  | acl
  | sco
  | event
deriving DecidableEq, Repr

/-- Numeric value of a `serial_data_type_t` tag. -/
def serial_data_type_t.toNat : serial_data_type_t → Nat
  | .command => 1
  | .acl => 2
  | .sco => 3
  | .event => 4

/-- `PACKET_TYPE_TO_INDEX(type)` is `type - 1`. -/
def PACKET_TYPE_TO_INDEX (type : serial_data_type_t) : Nat := type.toNat - 1

/-- `PREAMBLE_BUFFER_SIZE`: 4, the max preamble size (ACL). -/
def PREAMBLE_BUFFER_SIZE : Nat := 4

/-- The `preamble_sizes` table. Modelled from the spec for the constants:
the per-type preamble sizes (hci_internals.h is not under `src/`) are
COMMAND 3, ACL 4, SCO 3, EVENT 2 (spec section 3). -/
def preamble_sizes : List Nat := [3, 4, 3, 2]

/-- The `outbound_event_types` table (indexed by `PACKET_TYPE_TO_INDEX`). -/
def outbound_event_types : List Nat :=
  [MSG_HC_TO_STACK_HCI_ERR, MSG_HC_TO_STACK_HCI_ACL,
   MSG_HC_TO_STACK_HCI_SCO, MSG_HC_TO_STACK_HCI_EVT]

/-- `RETRIEVE_ACL_LENGTH(preamble)` is `(preamble[3] << 8) | preamble[2]`. -/
def RETRIEVE_ACL_LENGTH (preamble : List Nat) : Nat :=
  ((preamble.getD 3 0) <<< 8) ||| (preamble.getD 2 0)

/-- `receive_state_t`, the per-type reassembly states. -/
inductive receive_state_t where
  | BRAND_NEW
  | PREAMBLE
  | BODY
  | IGNORE
  | FINISHED
deriving DecidableEq, Repr

/-- `packet_receive_data_t`, the per-type reassembly context. -/
structure packet_receive_data_t where
  state : receive_state_t
  bytes_remaining : Nat
  preamble : List Nat
  index : Nat
  buffer : Option BT_HDR
deriving DecidableEq, Repr

/-- Pop the next outcome from the allocation oracle (an exhausted oracle
succeeds). -/
def alloc_next : List Bool → Bool × List Bool
  | [] => (true, [])
  | a :: rest => (a, rest)

/-- Write a run of bytes into `data` starting at position `i`, one
`data.set` per byte (writes past the end are dropped, as the C heap
overflow has no in-model meaning). -/
def write_bytes (data : List Nat) (i : Nat) : List Nat → List Nat
  | [] => data
  | b :: bs => write_bytes (data.set i b) (i + 1) bs

/-- The PREAMBLE-state arm of `hal_says_data_ready`'s switch (the
BRAND_NEW arm falls through to it after initializing the context): store
the byte in the preamble scratch; when the preamble completes, derive the
body length (little-endian 16-bit ACL length for ACL, else the byte just
read), allocate the packet buffer of size
`BT_HDR_SIZE + index + body_length`, initialize it and copy the preamble
in, and move to BODY/FINISHED — or to IGNORE/BRAND_NEW when allocation
fails. Returns the new context, the count of extra stream bytes consumed
(always 0 here) and the remaining allocation oracle. -/
def process_preamble_byte (type : serial_data_type_t)
    (incoming : packet_receive_data_t) (byte : Nat) (allocs : List Bool) :
    packet_receive_data_t × Nat × List Bool :=
  let preamble' := incoming.preamble.set incoming.index byte
  let index' := u16 (incoming.index + 1)
  let remaining' := u16sub1 incoming.bytes_remaining
  if remaining' = 0 then
    let body_length :=
      u16 (if type = .acl then RETRIEVE_ACL_LENGTH preamble' else byte)
    let buffer_size := BT_HDR_SIZE + index' + body_length
    let alloc := alloc_next allocs
    if !alloc.1 then
      ({ incoming with
         preamble := preamble'
         index := index'
         bytes_remaining := body_length
         buffer := none
         state := if body_length = 0 then .BRAND_NEW else .IGNORE },
       0, alloc.2)
    else
      let buffer : BT_HDR :=
        { event := outbound_event_types.getD (PACKET_TYPE_TO_INDEX type) 0
          len := 0
          offset := 0
          layer_specific := 0
          data := write_bytes (List.replicate (index' + body_length) 0) 0
            (preamble'.take index')
          size := buffer_size }
      ({ incoming with
         preamble := preamble'
         index := index'
         bytes_remaining := body_length
         buffer := some buffer
         state := if body_length > 0 then .BODY else .FINISHED },
       0, alloc.2)
  else
    ({ incoming with
       preamble := preamble'
       index := index'
       bytes_remaining := remaining'
       state := .PREAMBLE },
     0, allocs)

/-- One iteration of `hal_says_data_ready`'s per-byte switch on a byte
already read from the HAL. `rest` is the stream still available for the
opportunistic bulk read in the BODY state. Returns the new context, the
count of bytes the bulk read consumed from `rest`, and the remaining
allocation oracle. -/
def process_byte (type : serial_data_type_t)
    (incoming : packet_receive_data_t) (byte : Nat) (rest : List Nat)
    (allocs : List Bool) : packet_receive_data_t × Nat × List Bool :=
  match incoming.state with
  | .BRAND_NEW =>
    process_preamble_byte type
      { incoming with
        bytes_remaining := preamble_sizes.getD (PACKET_TYPE_TO_INDEX type) 0
        preamble := List.replicate PREAMBLE_BUFFER_SIZE 0
        index := 0
        state := .PREAMBLE }
      byte allocs
  | .PREAMBLE => process_preamble_byte type incoming byte allocs
  | .BODY =>
    match incoming.buffer with
    | none => (incoming, 0, allocs)
    | some buffer =>
      let data1 := buffer.data.set incoming.index byte
      let index1 := u16 (incoming.index + 1)
      let remaining1 := u16sub1 incoming.bytes_remaining
      let bytes_read := min remaining1 rest.length
      let data2 := write_bytes data1 index1 ((rest.take bytes_read).map u8)
      let index2 := u16 (index1 + bytes_read)
      let remaining2 := remaining1 - bytes_read
      ({ incoming with
         buffer := some { buffer with data := data2 }
         index := index2
         bytes_remaining := remaining2
         state := if remaining2 = 0 then .FINISHED else .BODY },
       bytes_read, allocs)
  | .IGNORE =>
    let remaining' := u16sub1 incoming.bytes_remaining
    ({ incoming with
       bytes_remaining := remaining'
       state := if remaining' = 0 then .BRAND_NEW else .IGNORE },
     0, allocs)
  | .FINISHED =>
    (incoming, 0, allocs)

/-- Result of one `hal_says_data_ready` invocation: the reassembly context
after, the stream bytes not consumed, the remaining allocation oracle, the
module state after a possible event-filter call, and the effects: the
btsnoop capture of the finished packet, the filter's result if it ran, the
packet handed to `reassemble_and_dispatch`, and how many times
`hal->packet_finished` was called. -/
structure data_ready_result_t where
  incoming : packet_receive_data_t
  stream : List Nat
  allocs : List Bool
  command_credits : Int
  commands_pending_response : List waiting_command_t
  snoop_captured : Option BT_HDR
  filter_effects : Option filter_result_t
  dispatched : Option BT_HDR
  packet_finished_count : Nat
deriving DecidableEq, Repr

/-- `hal_says_data_ready`: read bytes one at a time from the HAL stream,
advance the per-type state machine, and on reaching FINISHED set the
buffer length, capture to btsnoop, run the event filter (EVENT type only)
or hand the packet to the fragmenter's reassembler, reset the context to
BRAND_NEW, notify the HAL, and return; return as well when the stream is
exhausted. -/
def hal_says_data_ready (type : serial_data_type_t) (command_credits : Int)
    (commands_pending_response : List waiting_command_t)
    (incoming : packet_receive_data_t) (stream : List Nat)
    (allocs : List Bool) : data_ready_result_t :=
  match stream with
  | [] =>
    { incoming := incoming
      stream := []
      allocs := allocs
      command_credits := command_credits
      commands_pending_response := commands_pending_response
      snoop_captured := none
      filter_effects := none
      dispatched := none
      packet_finished_count := 0 }
  | b :: rest =>
    let step := process_byte type incoming (u8 b) rest allocs
    if step.1.state = .FINISHED then
      match step.1.buffer with
      | none =>
        -- unreachable while the context invariants hold: the FINISHED
        -- state always carries a buffer
        { incoming := { step.1 with buffer := none, state := .BRAND_NEW }
          stream := rest.drop step.2.1
          allocs := step.2.2
          command_credits := command_credits
          commands_pending_response := commands_pending_response
          snoop_captured := none
          filter_effects := none
          dispatched := none
          packet_finished_count := 1 }
      | some buffer0 =>
        let buffer := { buffer0 with len := step.1.index }
        let fe :=
          if type = .event then
            some (filter_incoming_event command_credits
              commands_pending_response buffer.data)
          else none
        let consumed :=
          match fe with
          | some f => f.consumed
          | none => false
        { incoming := { step.1 with buffer := none, state := .BRAND_NEW }
          stream := rest.drop step.2.1
          allocs := step.2.2
          command_credits :=
            match fe with
            | some f => f.command_credits
            | none => command_credits
          commands_pending_response :=
            match fe with
            | some f => f.pending_after
            | none => commands_pending_response
          snoop_captured := some buffer
          filter_effects := fe
          dispatched := if consumed then none else some buffer
          packet_finished_count := 1 }
    else
      hal_says_data_ready type command_credits commands_pending_response
        step.1 (rest.drop step.2.1) step.2.2
termination_by stream.length
decreasing_by
  simp only [List.length_cons, List.length_drop]
  omega

/-! Helper lemmas -/

theorem u8_lt (x : Nat) : u8 x < 256 := Nat.mod_lt _ (by norm_num)

theorem byteAt_lt (data : List Nat) (i : Nat) : byteAt data i < 256 :=
  u8_lt _

theorem getD_lt_of_forall {l : List Nat} (h : ∀ x ∈ l, x < 256) (i : Nat) :
    l.getD i 0 < 256 := by
  rcases lt_or_le i l.length with hi | hi
  · rw [List.getD_eq_getElem?_getD, List.getElem?_eq_getElem hi]
    exact h _ (l.getElem_mem hi)
  · rw [List.getD_eq_getElem?_getD, List.getElem?_eq_none hi]
    norm_num

theorem u16sub1_eq {n : Nat} (h0 : 0 < n) (h1 : n < 65536) :
    u16sub1 n = n - 1 := by
  unfold u16sub1
  omega

theorem write_bytes_cons (d : Nat) (ds : List Nat) (i : Nat) (l : List Nat) :
    write_bytes (d :: ds) (i + 1) l = d :: write_bytes ds i l := by
  induction l generalizing d ds i with
  | nil => simp [write_bytes]
  | cons b bs ih => simp [write_bytes, List.set_cons_succ, ih]

theorem write_bytes_zero_eq (l : List Nat) : ∀ data : List Nat,
    l.length ≤ data.length →
    write_bytes data 0 l = l ++ data.drop l.length := by
  induction l with
  | nil => intro data _; simp [write_bytes]
  | cons b bs ih =>
    intro data h
    cases data with
    | nil => simp at h
    | cons d ds =>
      have hlen : bs.length ≤ ds.length := by
        simpa using h
      simp only [write_bytes, List.set_cons_zero, write_bytes_cons,
        ih ds hlen, List.length_cons, List.drop_succ_cons, List.cons_append]

/-- Sample command buffer reused by the concrete witnesses below. -/
def sample_cmd : BT_HDR :=
  { event := 0, len := 3, offset := 0, layer_specific := 0, data := [3, 12, 0] }

/-- Sample wait entry reused by the concrete witnesses below. -/
def sample_wait (ctx : Nat) (cc sc : Bool) (op : Nat) : waiting_command_t :=
  { opcode := op, complete_callback := cc, status_callback := sc,
    command := sample_cmd, context := ctx }

/-- Sample running lifecycle state reused by the concrete witnesses below. -/
def sample_running : lifecycle_state_t :=
  { has_shut_down := false, firmware_is_configured := true, thread_exists := true }

/-! Theorems for the claims -/

/-- C1: filter_incoming_event returns true exactly for the
command-complete (0x0E) and command-status (0x0F) event codes — whether or
not a matching pending command exists — and false for every other code;
on an intercepted event the buffers are disposed per the spec's table:
with a waiter, a command-complete frees the original command and the wait
entry and frees the packet only when there is no complete callback (the
callback otherwise owns it), a command-status frees the packet and the
wait entry and frees the original command only when there is no status
callback (the callback otherwise owns it); with no waiter only the packet
is freed. -/
theorem C1_filter_incoming_event_contract
    (command_credits : Int) (pending : List waiting_command_t)
    (packet : List Nat) (r : filter_result_t)
    (hr : r = filter_incoming_event command_credits pending packet) :
    (r.consumed = true ↔
      byteAt packet 0 = HCI_COMMAND_COMPLETE_EVT ∨
      byteAt packet 0 = HCI_COMMAND_STATUS_EVT) ∧
    (r.consumed = false →
      r.packet_freed = false ∧ r.command_freed = false ∧
      r.wait_entry_freed = false ∧ r.pending_after = pending ∧
      r.complete_callback_invoked = false ∧
      r.status_callback_invoked = false) ∧
    (byteAt packet 0 = HCI_COMMAND_COMPLETE_EVT →
      ∀ w rest,
        get_waiting_command
          (stream_to_uint16 (byteAt packet 3) (byteAt packet 4)) pending =
          (some w, rest) →
        r.complete_callback_invoked = w.complete_callback ∧
        r.packet_freed = !w.complete_callback ∧
        r.command_freed = true ∧ r.wait_entry_freed = true ∧
        r.pending_after = rest) ∧
    (byteAt packet 0 = HCI_COMMAND_STATUS_EVT →
      ∀ w rest,
        get_waiting_command
          (stream_to_uint16 (byteAt packet 4) (byteAt packet 5)) pending =
          (some w, rest) →
        r.status_callback_invoked = w.status_callback ∧
        r.packet_freed = true ∧
        r.command_freed = !w.status_callback ∧
        r.wait_entry_freed = true ∧ r.pending_after = rest) ∧
    (byteAt packet 0 = HCI_COMMAND_COMPLETE_EVT →
      (get_waiting_command
        (stream_to_uint16 (byteAt packet 3) (byteAt packet 4)) pending).1 =
        none →
      r.packet_freed = true ∧ r.command_freed = false ∧
      r.wait_entry_freed = false ∧ r.warned_no_match = true) ∧
    (byteAt packet 0 = HCI_COMMAND_STATUS_EVT →
      (get_waiting_command
        (stream_to_uint16 (byteAt packet 4) (byteAt packet 5)) pending).1 =
        none →
      r.packet_freed = true ∧ r.command_freed = false ∧
      r.wait_entry_freed = false ∧ r.warned_no_match = true) := by
  subst hr
  by_cases hC : byteAt packet 0 = HCI_COMMAND_COMPLETE_EVT
  · have hS : byteAt packet 0 ≠ HCI_COMMAND_STATUS_EVT := by
      rw [hC]; decide
    rcases hg : get_waiting_command
        (stream_to_uint16 (byteAt packet 3) (byteAt packet 4)) pending with
      ⟨found, pending'⟩
    cases found with
    | none =>
      refine ⟨?_, ?_, ?_, ?_, ?_, ?_⟩ <;>
        simp_all [filter_incoming_event, filter_disposition,
          HCI_COMMAND_COMPLETE_EVT, HCI_COMMAND_STATUS_EVT]
    | some w =>
      refine ⟨?_, ?_, ?_, ?_, ?_, ?_⟩ <;>
        simp_all [filter_incoming_event, filter_disposition,
          HCI_COMMAND_COMPLETE_EVT, HCI_COMMAND_STATUS_EVT]
  · by_cases hS : byteAt packet 0 = HCI_COMMAND_STATUS_EVT
    · rcases hg : get_waiting_command
          (stream_to_uint16 (byteAt packet 4) (byteAt packet 5)) pending with
        ⟨found, pending'⟩
      cases found with
      | none =>
        refine ⟨?_, ?_, ?_, ?_, ?_, ?_⟩ <;>
          simp_all [filter_incoming_event, filter_disposition,
            HCI_COMMAND_COMPLETE_EVT, HCI_COMMAND_STATUS_EVT]
      | some w =>
        refine ⟨?_, ?_, ?_, ?_, ?_, ?_⟩ <;>
          simp_all [filter_incoming_event, filter_disposition,
            HCI_COMMAND_COMPLETE_EVT, HCI_COMMAND_STATUS_EVT]
    · refine ⟨?_, ?_, ?_, ?_, ?_, ?_⟩ <;>
        simp_all [filter_incoming_event, filter_disposition]

/-- Concrete command-complete event packet used by the C1 witness:
code 0x0E, parameter length 4, credits 1, opcode 0x0C03 little-endian. -/
def c1_packet : List Nat := [0x0E, 4, 1, 3, 0x0C]

/-- Witness for C1: a command-complete event whose waiter has a complete
callback is consumed, the packet is not freed, the original command and
the wait entry are freed. -/
theorem C1_witness :
    (filter_incoming_event 0 [sample_wait 0 true false 3075] c1_packet).consumed
      = true ∧
    (filter_incoming_event 0 [sample_wait 0 true false 3075]
      c1_packet).packet_freed = false ∧
    (filter_incoming_event 0 [sample_wait 0 true false 3075]
      c1_packet).command_freed = true ∧
    (filter_incoming_event 0 [sample_wait 0 true false 3075]
      c1_packet).wait_entry_freed = true := by
  obtain ⟨h1, h2, h3, h4, h5, h6⟩ :=
    C1_filter_incoming_event_contract 0 [sample_wait 0 true false 3075]
      c1_packet _ rfl
  have hg : get_waiting_command
      (stream_to_uint16 (byteAt c1_packet 3) (byteAt c1_packet 4))
      [sample_wait 0 true false 3075] = (some (sample_wait 0 true false 3075), []) := by
    decide
  have hc := h3 (by decide) (sample_wait 0 true false 3075) [] hg
  refine ⟨h1.mpr (Or.inl (by decide)), ?_, hc.2.2.1, hc.2.2.2.1⟩
  rw [hc.2.1]
  decide

/-- Credit values reachable from start_up through the only two operations
that write the counter: a command dispatch by event_command_ready and a
wholesale replacement by filter_incoming_event. -/
inductive credit_reachable : Int → Prop where
  | start_up : credit_reachable 1
  | command_ready (s : hci_state_t) : credit_reachable s.command_credits →
      credit_reachable (event_command_ready s).1.command_credits
  | filter_event (c : Int) (pending : List waiting_command_t)
      (packet : List Nat) : credit_reachable c →
      credit_reachable (filter_incoming_event c pending packet).command_credits

/-- The readiness handler leaves the credits unchanged or, only when they
are positive, decrements them by one. -/
theorem event_command_ready_credits_cases (s : hci_state_t) :
    (event_command_ready s).1.command_credits = s.command_credits ∨
    (0 < s.command_credits ∧
      (event_command_ready s).1.command_credits = s.command_credits - 1) := by
  unfold event_command_ready
  by_cases h : s.command_credits > 0
  · cases hq : s.command_queue with
    | nil => left; simp [h, hq]
    | cons w rest => right; exact ⟨h, by simp [h, hq]⟩
  · left; simp [h]

/-- The event filter leaves the credits unchanged on a non-intercepted
event and otherwise replaces them wholesale with an 8-bit byte of the
event. -/
theorem filter_incoming_event_credits_cases (c : Int)
    (pending : List waiting_command_t) (packet : List Nat) :
    ((filter_incoming_event c pending packet).consumed = false ∧
     (filter_incoming_event c pending packet).command_credits = c) ∨
    ((filter_incoming_event c pending packet).consumed = true ∧
     ∃ b : Nat, b < 256 ∧
       (filter_incoming_event c pending packet).command_credits = (b : Int)) := by
  by_cases h14 : byteAt packet 0 = HCI_COMMAND_COMPLETE_EVT
  · right
    refine ⟨by simp [filter_incoming_event, h14],
      byteAt packet 2, byteAt_lt _ _, by simp [filter_incoming_event, h14]⟩
  · by_cases h15 : byteAt packet 0 = HCI_COMMAND_STATUS_EVT
    · right
      refine ⟨by simp [filter_incoming_event, h14, h15,
          HCI_COMMAND_COMPLETE_EVT, HCI_COMMAND_STATUS_EVT],
        byteAt packet 3, byteAt_lt _ _,
        by simp [filter_incoming_event, h14, h15,
          HCI_COMMAND_COMPLETE_EVT, HCI_COMMAND_STATUS_EVT]⟩
    · left
      exact ⟨by simp [filter_incoming_event, h14, h15],
        by simp [filter_incoming_event, h14, h15]⟩

/-- C3: the credit counter starts at 1, is decremented only by a command
dispatch and only when positive, is otherwise only replaced wholesale by
an 8-bit event field (never incremented), and therefore stays
non-negative after every operation. -/
theorem C3_command_credits_invariant :
    (∀ c, credit_reachable c → 0 ≤ c) ∧
    (∀ s : hci_state_t,
      (event_command_ready s).1.command_credits = s.command_credits ∨
      (0 < s.command_credits ∧
        (event_command_ready s).1.command_credits = s.command_credits - 1)) ∧
    (∀ (c : Int) (pending : List waiting_command_t) (packet : List Nat),
      (filter_incoming_event c pending packet).consumed = false →
      (filter_incoming_event c pending packet).command_credits = c) ∧
    (∀ (c : Int) (pending : List waiting_command_t) (packet : List Nat),
      (filter_incoming_event c pending packet).consumed = true →
      ∃ b : Nat, b < 256 ∧
        (filter_incoming_event c pending packet).command_credits = (b : Int)) := by
  refine ⟨?_, event_command_ready_credits_cases, ?_, ?_⟩
  · intro c h
    induction h with
    | start_up => norm_num
    | command_ready s h ih =>
      rcases event_command_ready_credits_cases s with he | ⟨hpos, he⟩
      · rw [he]; exact ih
      · rw [he]; omega
    | filter_event c pending packet h ih =>
      rcases filter_incoming_event_credits_cases c pending packet with
        ⟨_, he⟩ | ⟨_, b, _, he⟩
      · rw [he]; exact ih
      · rw [he]; exact Int.natCast_nonneg b
  · intro c pending packet hcons
    rcases filter_incoming_event_credits_cases c pending packet with
      ⟨_, he⟩ | ⟨hc, _⟩
    · exact he
    · rw [hcons] at hc; cases hc
  · intro c pending packet hcons
    rcases filter_incoming_event_credits_cases c pending packet with
      ⟨hc, _⟩ | ⟨_, hb⟩
    · rw [hcons] at hc; cases hc
    · exact hb

/-- Witness for C3: credits 1 (the start_up value) and credits after one
dispatch are both non-negative. -/
theorem C3_witness :
    (0 : Int) ≤ 1 ∧
    0 ≤ (event_command_ready
      { command_credits := 1
        command_queue := [sample_wait 0 true false 3075]
        commands_pending_response := [] }).1.command_credits :=
  ⟨C3_command_credits_invariant.1 1 credit_reachable.start_up,
   C3_command_credits_invariant.1 _
     (credit_reachable.command_ready _ credit_reachable.start_up)⟩

/-- C2: the command-queue readiness handler with positive credits dequeues
exactly one pending command, decrements the credits by one, appends the
entry to the tail of the pending-response list, hands the command buffer
to the fragmenter bracketed by the low-power manager's wake_assert and
transmit_done, and restarts the command watchdog; with zero credits it
does nothing. -/
theorem C2_event_command_ready_contract (s : hci_state_t) :
    (∀ w rest, 0 < s.command_credits → s.command_queue = w :: rest →
      event_command_ready s =
        ({ command_credits := s.command_credits - 1
           command_queue := rest
           commands_pending_response := s.commands_pending_response ++ [w] },
         [.wake_assert, .fragment_and_dispatch w.command, .transmit_done,
          .restart_command_timeout])) ∧
    (s.command_credits = 0 → event_command_ready s = (s, [])) := by
  constructor
  · intro w rest hc hq
    unfold event_command_ready
    rw [hq]
    simp [hc]
  · intro h0
    unfold event_command_ready
    simp [h0]

/-- Witness for C2 at a concrete scheduler state. -/
theorem C2_witness :
    event_command_ready
        { command_credits := 1
          command_queue := [sample_wait 0 true false 3075]
          commands_pending_response := [] } =
      ({ command_credits := 0
         command_queue := []
         commands_pending_response := [sample_wait 0 true false 3075] },
       [.wake_assert, .fragment_and_dispatch sample_cmd, .transmit_done,
        .restart_command_timeout]) := by
  have h := (C2_event_command_ready_contract
    { command_credits := 1
      command_queue := [sample_wait 0 true false 3075]
      commands_pending_response := [] }).1
    (sample_wait 0 true false 3075) [] (by norm_num) rfl
  simpa [sample_wait] using h

/-- C7: get_waiting_command scans the pending-response list oldest-first,
removes and returns the first entry whose opcode matches, returns none
(leaving the list unchanged) when no entry matches, and removes at most
one entry per lookup; duplicates are therefore matched FIFO per opcode. -/
theorem C7_get_waiting_command_fifo (opcode : Nat) :
    (∀ pending, (get_waiting_command opcode pending).1 = none ↔
      ∀ w ∈ pending, w.opcode ≠ opcode) ∧
    (∀ pending, (get_waiting_command opcode pending).1 = none →
      (get_waiting_command opcode pending).2 = pending) ∧
    (∀ older (w : waiting_command_t) rest, w.opcode = opcode →
      (∀ x ∈ older, x.opcode ≠ opcode) →
      get_waiting_command opcode (older ++ w :: rest) = (some w, older ++ rest)) ∧
    (∀ pending, (get_waiting_command opcode pending).2.length + 1 = pending.length ∨
      ((get_waiting_command opcode pending).1 = none ∧
       (get_waiting_command opcode pending).2 = pending)) := by
  refine ⟨?_, ?_, ?_, ?_⟩
  · intro pending
    induction pending with
    | nil => simp [get_waiting_command]
    | cons a l ih =>
      by_cases h : a.opcode = opcode
      · simp [get_waiting_command, h]
      · simp only [get_waiting_command, if_neg h, List.mem_cons]
        constructor
        · intro hnone w hw
          rcases hw with hw | hw
          · subst hw; exact h
          · exact (ih.mp hnone) w hw
        · intro hall
          exact ih.mpr fun w hw => hall w (Or.inr hw)
  · intro pending
    induction pending with
    | nil => simp [get_waiting_command]
    | cons a l ih =>
      by_cases h : a.opcode = opcode
      · simp [get_waiting_command, h]
      · simp only [get_waiting_command, if_neg h]
        intro hnone
        simp only [List.cons.injEq, true_and]
        exact ih hnone
  · intro older w rest hw hall
    induction older with
    | nil => simp [get_waiting_command, hw]
    | cons a l ih =>
      have ha : a.opcode ≠ opcode := hall a (List.mem_cons_self a l)
      have ih' := ih fun x hx => hall x (List.mem_cons_of_mem a hx)
      simp only [List.cons_append, get_waiting_command, if_neg ha,
        List.append_eq]
      rw [ih']
  · intro pending
    induction pending with
    | nil => right; simp [get_waiting_command]
    | cons a l ih =>
      by_cases h : a.opcode = opcode
      · left; simp [get_waiting_command, h]
      · simp only [get_waiting_command, if_neg h]
        rcases ih with ih | ⟨ih1, ih2⟩
        · left; simpa using ih
        · right
          constructor
          · exact ih1
          · simp [ih2]

/-- Witness for C7: with two pending commands sharing opcode 7, the lookup
removes and returns the older one. -/
theorem C7_witness :
    get_waiting_command 7 [sample_wait 1 true false 7, sample_wait 2 false true 7] =
      (some (sample_wait 1 true false 7), [sample_wait 2 false true 7]) := by
  have h := (C7_get_waiting_command_fifo 7).2.2.1 [] (sample_wait 1 true false 7)
    [sample_wait 2 false true 7] rfl (by simp)
  simpa using h

/-- C8: shut_down is idempotent via has_shut_down: the first call performs
the teardown and sets the flag at its end; a later call only logs the
warning and changes nothing. -/
theorem C8_shut_down_idempotent (s : lifecycle_state_t) :
    (shut_down s).1.has_shut_down = true ∧
    shut_down (shut_down s).1 = ((shut_down s).1, [.warn_already_happened]) ∧
    (s.has_shut_down = true → shut_down s = (s, [.warn_already_happened])) ∧
    (s.has_shut_down = false →
      shutdown_step_t.close_inject ∈ (shut_down s).2 ∧
      shutdown_step_t.warn_already_happened ∉ (shut_down s).2) := by
  obtain ⟨h1, h2, h3⟩ := s
  cases h1 <;> cases h2 <;> cases h3 <;> decide

/-- Witness for C8 at a concrete running state. -/
theorem C8_witness :
    shutdown_step_t.close_inject ∈ (shut_down sample_running).2 ∧
    shutdown_step_t.warn_already_happened ∉ (shut_down sample_running).2 :=
  (C8_shut_down_idempotent sample_running).2.2.2 rfl

/-- C9 counterexample: the claim says a SCO-configure-failed callback is
synthesized whenever send_async_command returns a negative value, but the
code tests for -1 exactly: at return value -2 (negative) no callback is
synthesized. -/
theorem C9_counterexample_negative_result :
    (-2 : Int) < 0 ∧
    postload_call_t.sco_config_callback_local false ∉ event_postload (-2) := by
  decide

/-- C9 (amended): the postload task synthesizes the local
sco_config_callback(false) — which then starts the controller's ACL-size
fetch — exactly when the vendor's send_async_command returned -1; the
async SCO-configure command is issued in every case. -/
theorem C9_postload_synthesizes_exactly_on_minus_one (result : Int) :
    (postload_call_t.sco_config_callback_local false ∈ event_postload result ↔
      result = -1) ∧
    (postload_call_t.begin_acl_size_fetch ∈ event_postload result ↔
      result = -1) ∧
    postload_call_t.send_async_configure_sco ∈ event_postload result := by
  unfold event_postload sco_config_callback
  by_cases h : result = -1 <;> simp [h]

/-- Witness for C9 (amended) at the failing submission value -1. -/
theorem C9_witness :
    postload_call_t.sco_config_callback_local false ∈ event_postload (-1) :=
  (C9_postload_synthesizes_exactly_on_minus_one (-1)).1.mpr rfl

/-- C10: when allocating the wait entry fails, transmit_command logs an
error and returns without enqueuing the command, without invoking either
callback, and without freeing the caller's command buffer. -/
theorem C10_transmit_command_alloc_failure
    (command_queue : List waiting_command_t) (command : BT_HDR)
    (complete_callback status_callback : Bool) (context : Nat)
    (r : transmit_result_t)
    (hr : r = transmit_command false command_queue command complete_callback
      status_callback context) :
    r.command_queue = command_queue ∧ r.enqueued = none ∧
    r.logged_error = true ∧ r.command_freed = false ∧
    r.complete_callback_invoked = false ∧
    r.status_callback_invoked = false := by
  subst hr
  simp [transmit_command]

/-- Witness for C10 at a concrete command. -/
theorem C10_witness :
    (transmit_command false [] sample_cmd true false 0).enqueued = none ∧
    (transmit_command false [] sample_cmd true false 0).logged_error = true :=
  ⟨(C10_transmit_command_alloc_failure [] sample_cmd true false 0 _ rfl).2.1,
   (C10_transmit_command_alloc_failure [] sample_cmd true false 0 _ rfl).2.2.1⟩

/-- C4: when the inbound preamble completes, the body length is the
little-endian 16-bit value at preamble bytes 2..3 for ACL and the last
preamble byte for SCO and EVENT; the allocated buffer has size
BT_HDR_SIZE + preamble_size + body_length, the preamble bytes are copied
to its start, its offset is 0, its event is the per-type inbound tag, and
the next state is BODY when the body length is positive and FINISHED when
it is 0. -/
theorem C4_preamble_completion
    (type : serial_data_type_t) (incoming : packet_receive_data_t)
    (byte : Nat) (rest : List Nat) (allocs : List Bool)
    (preamble' : List Nat) (body_length : Nat)
    (htype : type ≠ .command)
    (hstate : incoming.state = .PREAMBLE)
    (hrem : incoming.bytes_remaining = 1)
    (hidx : incoming.index + 1 = preamble_sizes.getD (PACKET_TYPE_TO_INDEX type) 0)
    (hlen : incoming.preamble.length = PREAMBLE_BUFFER_SIZE)
    (hbytes : ∀ x ∈ incoming.preamble, x < 256)
    (hbyte : byte < 256)
    (halloc : (alloc_next allocs).1 = true)
    (hpre : preamble' = incoming.preamble.set incoming.index byte)
    (hbody : body_length =
      if type = .acl then preamble'.getD 2 0 + 256 * preamble'.getD 3 0
      else preamble'.getD
        (preamble_sizes.getD (PACKET_TYPE_TO_INDEX type) 0 - 1) 0) :
    ∃ buffer : BT_HDR,
      (process_byte type incoming byte rest allocs).1.buffer = some buffer ∧
      buffer.size = BT_HDR_SIZE +
        preamble_sizes.getD (PACKET_TYPE_TO_INDEX type) 0 + body_length ∧
      buffer.offset = 0 ∧
      buffer.event = outbound_event_types.getD (PACKET_TYPE_TO_INDEX type) 0 ∧
      buffer.data.take (preamble_sizes.getD (PACKET_TYPE_TO_INDEX type) 0) =
        preamble'.take (preamble_sizes.getD (PACKET_TYPE_TO_INDEX type) 0) ∧
      (process_byte type incoming byte rest allocs).1.index =
        preamble_sizes.getD (PACKET_TYPE_TO_INDEX type) 0 ∧
      (process_byte type incoming byte rest allocs).1.bytes_remaining =
        body_length ∧
      (process_byte type incoming byte rest allocs).1.state =
        (if 0 < body_length then .BODY else .FINISHED) := by
  have hpb : process_byte type incoming byte rest allocs =
      process_preamble_byte type incoming byte allocs := by
    unfold process_byte
    rw [hstate]
  have hplen : preamble'.length = 4 := by
    rw [hpre, List.length_set, hlen]
    rfl
  have h0 : u16sub1 1 = 0 := by decide
  rcases type with _ | _ | _ | _
  · exact absurd rfl htype
  · -- ACL: preamble size 4, index 3, body = LE16 at bytes 2..3
    have hpsize : preamble_sizes.getD
        (PACKET_TYPE_TO_INDEX serial_data_type_t.acl) 0 = 4 := by decide
    rw [hpsize] at hidx ⊢
    have hidx' : incoming.index = 3 := by omega
    have h3lt : 3 < incoming.preamble.length := by
      rw [hlen]; norm_num [PREAMBLE_BUFFER_SIZE]
    have hp3 : preamble'[3]?.getD 0 = byte := by
      rw [hpre, hidx']
      simp [List.getElem?_set_self h3lt]
    have hp2 : preamble'[2]?.getD 0 = incoming.preamble[2]?.getD 0 := by
      rw [hpre, hidx']
      simp [List.getElem?_set_ne (by norm_num : (3 : Nat) ≠ 2)]
    have hp2lt : preamble'.getD 2 0 < 256 := by
      rw [List.getD_eq_getElem?_getD, hp2, ← List.getD_eq_getElem?_getD]
      exact getD_lt_of_forall hbytes 2
    have hbody' : body_length = preamble'.getD 2 0 + 256 * byte := by
      rw [hbody, if_pos rfl, List.getD_eq_getElem?_getD preamble' 3, hp3]
    have hretr : RETRIEVE_ACL_LENGTH preamble' = body_length := by
      unfold RETRIEVE_ACL_LENGTH
      rw [List.getD_eq_getElem?_getD preamble' 3, hp3, Nat.shiftLeft_eq]
      have hor := Nat.mul_add_lt_is_or
        (show preamble'.getD 2 0 < 2 ^ 8 by simpa using hp2lt) byte
      rw [Nat.mul_comm byte (2 ^ 8), ← hor, hbody']
      omega
    have hu16 : u16 body_length = body_length := by
      refine Nat.mod_eq_of_lt ?_
      rw [hbody']
      omega
    have hcopy : (preamble'.take 4).length ≤
        (List.replicate (4 + body_length) (0 : Nat)).length := by
      simp [hplen]
    have heq : process_preamble_byte serial_data_type_t.acl incoming byte allocs =
        ({ state := if 0 < body_length then .BODY else .FINISHED
           bytes_remaining := body_length
           preamble := preamble'
           index := 4
           buffer := some
             { event := outbound_event_types.getD
                 (PACKET_TYPE_TO_INDEX serial_data_type_t.acl) 0
               len := 0
               offset := 0
               layer_specific := 0
               data := write_bytes (List.replicate (4 + body_length) 0) 0
                 (preamble'.take 4)
               size := BT_HDR_SIZE + 4 + body_length } },
         0, (alloc_next allocs).2) := by
      unfold process_preamble_byte
      rw [← hpre, hrem, hidx', h0]
      simp only [halloc, hretr, hu16, Bool.not_true, Bool.false_eq_true,
        if_false, reduceIte, show u16 (3 + 1) = 4 from by decide]
    rw [hpb, heq]
    refine ⟨_, rfl, rfl, rfl, rfl, ?_, rfl, rfl, rfl⟩
    rw [write_bytes_zero_eq _ _ hcopy]
    exact List.take_left' (by simp [hplen])
  · -- SCO: preamble size 3, index 2, body = last preamble byte
    have hpsize : preamble_sizes.getD
        (PACKET_TYPE_TO_INDEX serial_data_type_t.sco) 0 = 3 := by decide
    rw [hpsize] at hidx hbody ⊢
    have hidx' : incoming.index = 2 := by omega
    have h2lt : 2 < incoming.preamble.length := by
      rw [hlen]; norm_num [PREAMBLE_BUFFER_SIZE]
    have hlast : preamble'[2]?.getD 0 = byte := by
      rw [hpre, hidx']
      simp [List.getElem?_set_self h2lt]
    have hbodyb : body_length = byte := by
      rw [hbody, if_neg (by decide),
        show (3 : Nat) - 1 = 2 from by norm_num,
        List.getD_eq_getElem?_getD preamble' 2, hlast]
    have hu16 : u16 byte = byte := Nat.mod_eq_of_lt (by omega)
    have hcopy : (preamble'.take 3).length ≤
        (List.replicate (3 + byte) (0 : Nat)).length := by
      simp [hplen]
    have heq : process_preamble_byte serial_data_type_t.sco incoming byte allocs =
        ({ state := if 0 < byte then .BODY else .FINISHED
           bytes_remaining := byte
           preamble := preamble'
           index := 3
           buffer := some
             { event := outbound_event_types.getD
                 (PACKET_TYPE_TO_INDEX serial_data_type_t.sco) 0
               len := 0
               offset := 0
               layer_specific := 0
               data := write_bytes (List.replicate (3 + byte) 0) 0
                 (preamble'.take 3)
               size := BT_HDR_SIZE + 3 + byte } },
         0, (alloc_next allocs).2) := by
      unfold process_preamble_byte
      rw [← hpre, hrem, hidx', h0]
      simp only [halloc, hu16, Bool.not_true, Bool.false_eq_true, if_false,
        reduceIte, show u16 (2 + 1) = 3 from by decide,
        show (serial_data_type_t.sco = serial_data_type_t.acl) = False from by
          simp]
    rw [hpb, heq, hbodyb]
    refine ⟨_, rfl, rfl, rfl, rfl, ?_, rfl, rfl, rfl⟩
    rw [write_bytes_zero_eq _ _ hcopy]
    exact List.take_left' (by simp [hplen])
  · -- EVENT: preamble size 2, index 1, body = last preamble byte
    have hpsize : preamble_sizes.getD
        (PACKET_TYPE_TO_INDEX serial_data_type_t.event) 0 = 2 := by decide
    rw [hpsize] at hidx hbody ⊢
    have hidx' : incoming.index = 1 := by omega
    have h1lt : 1 < incoming.preamble.length := by
      rw [hlen]; norm_num [PREAMBLE_BUFFER_SIZE]
    have hlast : preamble'[1]?.getD 0 = byte := by
      rw [hpre, hidx']
      simp [List.getElem?_set_self h1lt]
    have hbodyb : body_length = byte := by
      rw [hbody, if_neg (by decide),
        show (2 : Nat) - 1 = 1 from by norm_num,
        List.getD_eq_getElem?_getD preamble' 1, hlast]
    have hu16 : u16 byte = byte := Nat.mod_eq_of_lt (by omega)
    have hcopy : (preamble'.take 2).length ≤
        (List.replicate (2 + byte) (0 : Nat)).length := by
      simp [hplen]
    have heq : process_preamble_byte serial_data_type_t.event incoming byte allocs =
        ({ state := if 0 < byte then .BODY else .FINISHED
           bytes_remaining := byte
           preamble := preamble'
           index := 2
           buffer := some
             { event := outbound_event_types.getD
                 (PACKET_TYPE_TO_INDEX serial_data_type_t.event) 0
               len := 0
               offset := 0
               layer_specific := 0
               data := write_bytes (List.replicate (2 + byte) 0) 0
                 (preamble'.take 2)
               size := BT_HDR_SIZE + 2 + byte } },
         0, (alloc_next allocs).2) := by
      unfold process_preamble_byte
      rw [← hpre, hrem, hidx', h0]
      simp only [halloc, hu16, Bool.not_true, Bool.false_eq_true, if_false,
        reduceIte, show u16 (1 + 1) = 2 from by decide,
        show (serial_data_type_t.event = serial_data_type_t.acl) = False from by
          simp]
    rw [hpb, heq, hbodyb]
    refine ⟨_, rfl, rfl, rfl, rfl, ?_, rfl, rfl, rfl⟩
    rw [write_bytes_zero_eq _ _ hcopy]
    exact List.take_left' (by simp [hplen])

/-- Witness for C4: completing an EVENT preamble 0x13 0x03 with a
successful allocation yields a buffer of size BT_HDR_SIZE + 2 + 3 holding
the preamble, and the context enters BODY for the 3 body bytes. -/
theorem C4_witness :
    ∃ buffer : BT_HDR,
      (process_byte .event
          { state := .PREAMBLE, bytes_remaining := 1,
            preamble := [19, 0, 0, 0], index := 1, buffer := none }
          3 [] []).1.buffer = some buffer ∧
      buffer.size = BT_HDR_SIZE +
        preamble_sizes.getD (PACKET_TYPE_TO_INDEX .event) 0 + 3 ∧
      buffer.offset = 0 ∧
      buffer.event = outbound_event_types.getD (PACKET_TYPE_TO_INDEX .event) 0 ∧
      buffer.data.take (preamble_sizes.getD (PACKET_TYPE_TO_INDEX .event) 0) =
        List.take (preamble_sizes.getD (PACKET_TYPE_TO_INDEX .event) 0)
          [19, 3, 0, 0] ∧
      (process_byte .event
          { state := .PREAMBLE, bytes_remaining := 1,
            preamble := [19, 0, 0, 0], index := 1, buffer := none }
          3 [] []).1.index =
        preamble_sizes.getD (PACKET_TYPE_TO_INDEX .event) 0 ∧
      (process_byte .event
          { state := .PREAMBLE, bytes_remaining := 1,
            preamble := [19, 0, 0, 0], index := 1, buffer := none }
          3 [] []).1.bytes_remaining = 3 ∧
      (process_byte .event
          { state := .PREAMBLE, bytes_remaining := 1,
            preamble := [19, 0, 0, 0], index := 1, buffer := none }
          3 [] []).1.state = (if 0 < 3 then .BODY else .FINISHED) :=
  C4_preamble_completion .event
    { state := .PREAMBLE, bytes_remaining := 1, preamble := [19, 0, 0, 0],
      index := 1, buffer := none }
    3 [] [] [19, 3, 0, 0] 3
    (by decide) rfl rfl (by decide) (by decide) (by decide) (by decide)
    (by decide) (by decide) (by decide)

/-- C6: if allocation fails when a preamble completes, the context enters
IGNORE carrying the body length as bytes_remaining (or goes straight back
to BRAND_NEW when the body length is 0), and from IGNORE the reassembler
drains exactly that many bytes one at a time, returns to BRAND_NEW, and
dispatches nothing for the dropped packet. -/
theorem C6_alloc_failure_ignore_drain :
    (∀ (type : serial_data_type_t) (incoming : packet_receive_data_t)
        (byte : Nat) (rest : List Nat) (allocs : List Bool),
      incoming.state = .PREAMBLE →
      incoming.bytes_remaining = 1 →
      (alloc_next allocs).1 = false →
      (process_byte type incoming byte rest allocs).1.buffer = none ∧
      (process_byte type incoming byte rest allocs).1.bytes_remaining =
        u16 (if type = .acl then
          RETRIEVE_ACL_LENGTH (incoming.preamble.set incoming.index byte)
        else byte) ∧
      (process_byte type incoming byte rest allocs).1.state =
        (if u16 (if type = .acl then
            RETRIEVE_ACL_LENGTH (incoming.preamble.set incoming.index byte)
          else byte) = 0
         then .BRAND_NEW else .IGNORE)) ∧
    (∀ (type : serial_data_type_t) (command_credits : Int)
        (pending : List waiting_command_t) (preamble : List Nat)
        (index n : Nat) (stream : List Nat) (allocs : List Bool),
      0 < n → n < 65536 → stream.length = n →
      hal_says_data_ready type command_credits pending
          { state := .IGNORE, bytes_remaining := n, preamble := preamble,
            index := index, buffer := none }
          stream allocs =
        { incoming :=
            { state := .BRAND_NEW, bytes_remaining := 0,
              preamble := preamble, index := index, buffer := none }
          stream := []
          allocs := allocs
          command_credits := command_credits
          commands_pending_response := pending
          snoop_captured := none
          filter_effects := none
          dispatched := none
          packet_finished_count := 0 }) := by
  constructor
  · intro type incoming byte rest allocs hstate hrem halloc
    have hpb : process_byte type incoming byte rest allocs =
        process_preamble_byte type incoming byte allocs := by
      unfold process_byte
      rw [hstate]
    rw [hpb]
    unfold process_preamble_byte
    rw [hrem]
    simp only [show u16sub1 1 = 0 from by decide, halloc, Bool.not_false,
      reduceIte]
    refine ⟨?_, ?_, ?_⟩ <;> trivial
  · intro type command_credits pending preamble index n stream allocs hn hlt
      hlen
    induction stream generalizing n with
    | nil =>
      simp only [List.length_nil] at hlen
      omega
    | cons b rest ih =>
      have hu : u16sub1 n = n - 1 := u16sub1_eq hn hlt
      have hrest : rest.length = n - 1 := by
        simp only [List.length_cons] at hlen
        omega
      simp only [hal_says_data_ready, process_byte, hu]
      by_cases h1 : n - 1 = 0
      · have hnil : rest = [] := List.eq_nil_of_length_eq_zero (by omega)
        subst hnil
        simp only [h1, reduceIte, List.drop_zero, hal_says_data_ready,
          show (receive_state_t.BRAND_NEW = receive_state_t.FINISHED) = False
            from by simp, if_false]
      · simp only [h1, reduceIte, List.drop_zero,
          show (receive_state_t.IGNORE = receive_state_t.FINISHED) = False
            from by simp, if_false]
        exact ih (n - 1) (by omega) (by omega) hrest

/-- Witness for C6: an EVENT preamble with body length 3 whose allocation
fails enters IGNORE with 3 bytes remaining; draining a 3-byte stream from
that context returns to BRAND_NEW with nothing dispatched. -/
theorem C6_witness :
    (process_byte .event
        { state := .PREAMBLE, bytes_remaining := 1, preamble := [19, 0, 0, 0],
          index := 1, buffer := none }
        3 [] [false]).1.state = .IGNORE ∧
    hal_says_data_ready .event 1 []
        { state := .IGNORE, bytes_remaining := 3, preamble := [19, 3, 0, 0],
          index := 2, buffer := none }
        [9, 9, 9] [] =
      { incoming :=
          { state := .BRAND_NEW, bytes_remaining := 0,
            preamble := [19, 3, 0, 0], index := 2, buffer := none }
        stream := []
        allocs := []
        command_credits := 1
        commands_pending_response := []
        snoop_captured := none
        filter_effects := none
        dispatched := none
        packet_finished_count := 0 } := by
  constructor
  · exact ((C6_alloc_failure_ignore_drain.1 .event
      { state := .PREAMBLE, bytes_remaining := 1, preamble := [19, 0, 0, 0],
        index := 1, buffer := none }
      3 [] [false] rfl rfl rfl).2.2).trans (by decide)
  · exact C6_alloc_failure_ignore_drain.2 .event 1 [] [19, 3, 0, 0] 2 3
      [9, 9, 9] [] (by norm_num) (by norm_num) rfl

/-- A PREAMBLE/BRAND_NEW step that lands in BODY or FINISHED always
carries an allocated buffer. -/
theorem process_preamble_byte_buffer (type : serial_data_type_t)
    (incoming : packet_receive_data_t) (byte : Nat) (allocs : List Bool) :
    ((process_preamble_byte type incoming byte allocs).1.state = .BODY ∨
     (process_preamble_byte type incoming byte allocs).1.state = .FINISHED) →
    ((process_preamble_byte type incoming byte allocs).1.buffer).isSome
      = true := by
  unfold process_preamble_byte
  by_cases h0 : u16sub1 incoming.bytes_remaining = 0
  · simp only [h0, reduceIte]
    by_cases ha : (alloc_next allocs).1 = true
    · simp [ha]
    · have ha' : (alloc_next allocs).1 = false := by
        simpa using ha
      simp only [ha', Bool.not_false, reduceIte]
      intro h
      rcases h with h | h <;> (split at h <;> split at h <;> simp_all)
  · simp only [h0, reduceIte]
    intro h
    rcases h with h | h <;> simp_all

/-- A reassembly step from a well-formed context (a BODY context owns a
buffer, FINISHED never persists) that lands in BODY or FINISHED carries a
buffer. -/
theorem process_byte_buffer (type : serial_data_type_t)
    (incoming : packet_receive_data_t) (byte : Nat) (rest : List Nat)
    (allocs : List Bool)
    (hbody : incoming.state = .BODY → incoming.buffer.isSome = true)
    (hfin : incoming.state ≠ .FINISHED) :
    ((process_byte type incoming byte rest allocs).1.state = .BODY ∨
     (process_byte type incoming byte rest allocs).1.state = .FINISHED) →
    ((process_byte type incoming byte rest allocs).1.buffer).isSome = true := by
  cases hstate : incoming.state with
  | BRAND_NEW =>
    have h := process_preamble_byte_buffer type
      { incoming with
        bytes_remaining := preamble_sizes.getD (PACKET_TYPE_TO_INDEX type) 0
        preamble := List.replicate PREAMBLE_BUFFER_SIZE 0
        index := 0
        state := .PREAMBLE }
      byte allocs
    simpa [process_byte, hstate] using h
  | PREAMBLE =>
    have h := process_preamble_byte_buffer type incoming byte allocs
    simpa [process_byte, hstate] using h
  | BODY =>
    have hb := hbody hstate
    cases hbuf : incoming.buffer with
    | none => rw [hbuf] at hb; simp at hb
    | some buffer => simp [process_byte, hstate, hbuf]
  | IGNORE =>
    intro h
    rcases h with h | h <;>
      · simp only [process_byte, hstate] at h
        split at h <;> simp_all
  | FINISHED => exact absurd hstate hfin

/-- Behaviour of one `hal_says_data_ready` invocation, proved by fuel
induction on the length of the available byte stream. -/
theorem hal_says_data_ready_spec (fuel : Nat) :
    ∀ (type : serial_data_type_t) (command_credits : Int)
      (pending : List waiting_command_t) (incoming : packet_receive_data_t)
      (stream : List Nat) (allocs : List Bool) (r : data_ready_result_t),
    r = hal_says_data_ready type command_credits pending incoming stream
      allocs →
    stream.length ≤ fuel →
    (incoming.state = .BODY → incoming.buffer.isSome = true) →
    incoming.state ≠ .FINISHED →
    r.packet_finished_count ≤ 1 ∧
    (stream = [] →
      r = { incoming := incoming, stream := [], allocs := allocs,
            command_credits := command_credits,
            commands_pending_response := pending, snoop_captured := none,
            filter_effects := none, dispatched := none,
            packet_finished_count := 0 }) ∧
    (∀ buffer, r.snoop_captured = some buffer →
      r.packet_finished_count = 1 ∧ r.incoming.state = .BRAND_NEW ∧
      r.incoming.buffer = none ∧ buffer.len = r.incoming.index) ∧
    (r.snoop_captured = none →
      r.dispatched = none ∧ r.packet_finished_count = 0) ∧
    (type ≠ .event →
      r.filter_effects = none ∧ r.dispatched = r.snoop_captured) ∧
    (∀ f, r.filter_effects = some f →
      type = .event ∧
      (f.consumed = true → r.dispatched = none) ∧
      (f.consumed = false → r.dispatched = r.snoop_captured)) := by
  induction fuel with
  | zero =>
    intro type command_credits pending incoming stream allocs r hr hle hbody
      hfin
    have hnil : stream = [] :=
      List.eq_nil_of_length_eq_zero (by omega)
    subst hnil
    subst hr
    simp only [hal_says_data_ready]
    refine ⟨by norm_num, by simp, ?_, ?_, ?_, ?_⟩ <;> simp
  | succ fuel ih =>
    intro type command_credits pending incoming stream allocs r hr hle hbody
      hfin
    cases stream with
    | nil =>
      subst hr
      simp only [hal_says_data_ready]
      refine ⟨by norm_num, by simp, ?_, ?_, ?_, ?_⟩ <;> simp
    | cons b rest =>
      by_cases hF : (process_byte type incoming (u8 b) rest allocs).1.state
          = .FINISHED
      · cases hbuf : (process_byte type incoming (u8 b) rest allocs).1.buffer
          with
        | none =>
          have hinv := process_byte_buffer type incoming (u8 b) rest allocs
            hbody hfin (Or.inr hF)
          rw [hbuf] at hinv
          simp at hinv
        | some buffer0 =>
          subst hr
          by_cases hT : type = .event
          · subst hT
            refine ⟨?_, ?_, ?_, ?_, ?_, ?_⟩
            · simp [hal_says_data_ready, hF, hbuf]
            · intro h; simp at h
            · simp only [hal_says_data_ready, hF, hbuf, reduceIte]
              intro buffer hb
              simp at hb
              subst hb
              refine ⟨?_, ?_, ?_, ?_⟩ <;> trivial
            · simp [hal_says_data_ready, hF, hbuf]
            · intro h; exact absurd rfl h
            · simp only [hal_says_data_ready, hF, hbuf, reduceIte]
              intro f hf
              simp at hf
              subst hf
              refine ⟨by trivial, ?_, ?_⟩
              · intro hc; simp [hc]
              · intro hc; simp [hc]
          · refine ⟨?_, ?_, ?_, ?_, ?_, ?_⟩
            · simp [hal_says_data_ready, hF, hbuf, hT]
            · intro h; simp at h
            · simp only [hal_says_data_ready, hF, hbuf, hT, reduceIte]
              intro buffer hb
              simp at hb
              subst hb
              refine ⟨?_, ?_, ?_, ?_⟩ <;> trivial
            · simp [hal_says_data_ready, hF, hbuf, hT]
            · intro _
              simp [hal_says_data_ready, hF, hbuf, hT]
            · simp only [hal_says_data_ready, hF, hbuf, hT, reduceIte]
              intro f hf
              simp at hf
      · have hbody' : (process_byte type incoming (u8 b) rest allocs).1.state
              = .BODY →
            ((process_byte type incoming (u8 b) rest allocs).1.buffer).isSome
              = true :=
          fun hb => process_byte_buffer type incoming (u8 b) rest allocs
            hbody hfin (Or.inl hb)
        have hle' : (rest.drop
            (process_byte type incoming (u8 b) rest allocs).2.1).length ≤
            fuel := by
          simp only [List.length_drop]
          simp only [List.length_cons] at hle
          omega
        have hrec := ih type command_credits pending
          (process_byte type incoming (u8 b) rest allocs).1
          (rest.drop (process_byte type incoming (u8 b) rest allocs).2.1)
          (process_byte type incoming (u8 b) rest allocs).2.2 _ rfl hle'
          hbody' hF
        subst hr
        simp only [hal_says_data_ready, hF, reduceIte]
        refine ⟨hrec.1, ?_, hrec.2.2.1, hrec.2.2.2.1, hrec.2.2.2.2.1,
          hrec.2.2.2.2.2⟩
        intro h
        first
        | exact h.elim
        | simp at h

/-- C5: one hal_says_data_ready invocation emits at most one complete
packet: when a packet finishes it is captured to btsnoop, either swallowed
by the event filter (EVENT type only) or handed to the fragmenter's
reassembler, the context is reset to BRAND_NEW with no owned buffer, the
HAL is notified exactly once via packet_finished, and the function returns
even if more bytes are buffered; with no available byte nothing is
emitted and the state is unchanged. -/
theorem C5_at_most_one_packet_per_invocation
    (type : serial_data_type_t) (command_credits : Int)
    (pending : List waiting_command_t) (incoming : packet_receive_data_t)
    (stream : List Nat) (allocs : List Bool) (r : data_ready_result_t)
    (hr : r = hal_says_data_ready type command_credits pending incoming
      stream allocs)
    (hbody : incoming.state = .BODY → incoming.buffer.isSome = true)
    (hfin : incoming.state ≠ .FINISHED) :
    r.packet_finished_count ≤ 1 ∧
    (stream = [] →
      r = { incoming := incoming, stream := [], allocs := allocs,
            command_credits := command_credits,
            commands_pending_response := pending, snoop_captured := none,
            filter_effects := none, dispatched := none,
            packet_finished_count := 0 }) ∧
    (∀ buffer, r.snoop_captured = some buffer →
      r.packet_finished_count = 1 ∧ r.incoming.state = .BRAND_NEW ∧
      r.incoming.buffer = none ∧ buffer.len = r.incoming.index) ∧
    (r.snoop_captured = none →
      r.dispatched = none ∧ r.packet_finished_count = 0) ∧
    (type ≠ .event →
      r.filter_effects = none ∧ r.dispatched = r.snoop_captured) ∧
    (∀ f, r.filter_effects = some f →
      type = .event ∧
      (f.consumed = true → r.dispatched = none) ∧
      (f.consumed = false → r.dispatched = r.snoop_captured)) :=
  hal_says_data_ready_spec stream.length type command_credits pending
    incoming stream allocs r hr le_rfl hbody hfin

/-- Witness for C5: a fresh EVENT context with a 3-byte stream performs at
most one packet_finished notification, and with no available byte the
invocation changes nothing and emits nothing. -/
theorem C5_witness :
    (hal_says_data_ready .event 1 []
        { state := .BRAND_NEW, bytes_remaining := 0, preamble := [],
          index := 0, buffer := none }
        [19, 1, 255] []).packet_finished_count ≤ 1 ∧
    hal_says_data_ready .event 1 []
        { state := .BRAND_NEW, bytes_remaining := 0, preamble := [],
          index := 0, buffer := none }
        [] [] =
      { incoming :=
          { state := .BRAND_NEW, bytes_remaining := 0,
            preamble := [], index := 0, buffer := none }
        stream := []
        allocs := []
        command_credits := 1
        commands_pending_response := []
        snoop_captured := none
        filter_effects := none
        dispatched := none
        packet_finished_count := 0 } :=
  ⟨(C5_at_most_one_packet_per_invocation .event 1 []
      { state := .BRAND_NEW, bytes_remaining := 0, preamble := [],
        index := 0, buffer := none }
      [19, 1, 255] [] _ rfl (by simp) (by simp)).1,
   (C5_at_most_one_packet_per_invocation .event 1 []
      { state := .BRAND_NEW, bytes_remaining := 0, preamble := [],
        index := 0, buffer := none }
      [] [] _ rfl (by simp) (by simp)).2.1 rfl⟩

end Hci
